import Mathlib

/-
Verification of the VALORANT replay injection tool.

Shallow embedding of the Python sources:
  region_config.py            (RegionConfig: shard tables, endpoint selection, set_region)
  replay_file_manager.py      (ReplayFileManager: backup / inject / restore; SessionMonitor loop)
  replay_metadata.py          (ReplayMetadataFetcher: lockfile parsing, match-id extraction,
                               metadata dictionaries)
  modern_replay_injector_ui.py (custom_monitoring_loop, background threads)

File names and file contents are modelled as `List Char` (so that the character-level
operations of the source — str.split, str.replace, Path.stem, regular-expression
matching — can be embedded exactly).  File systems are association lists from names
to contents (contents abstracted as `Nat`).  HTTP calls are oracle parameters: each
fallible fetch is an `Option` input to the function that consumes it.
-/

namespace ReplayTool

/-! ## region_config.py -/

/-- Region to shard mapping (`RegionConfig.REGION_SHARD_MAP`). -/
def REGION_SHARD_MAP : List (String × String) :=
  [("na", "na"), ("latam", "na"), ("br", "na"),
   ("eu", "eu"), ("ap", "ap"), ("kr", "kr"), ("pbe", "pbe")]

/-- Match history query API regional endpoints (`RegionConfig.MATCH_HISTORY_QUERY_ENDPOINTS`). -/
def MATCH_HISTORY_QUERY_ENDPOINTS : List (String × String) :=
  [("na", "usw2.pp.sgp.pvp.net"), ("eu", "euw3.pp.sgp.pvp.net"),
   ("ap", "apse1.pp.sgp.pvp.net"), ("kr", "kr.pp.sgp.pvp.net"),
   ("pbe", "usw2.pp.sgp.pvp.net")]

/-- Regions offered for user selection (`RegionConfig.AVAILABLE_REGIONS`). -/
def AVAILABLE_REGIONS : List (String × String) :=
  [("na", "North America"), ("eu", "Europe"), ("ap", "Asia Pacific"),
   ("kr", "Korea"), ("latam", "Latin America"), ("br", "Brazil"),
   ("pbe", "PBE (Beta)")]

/-- The `region = region or self.current_region` line opening every endpoint
method of `RegionConfig`: a falsy argument (`None`, modelled `none`, or the
empty string) is replaced by `self.current_region`. -/
def resolveRegion (current_region : String) (region : Option String) : String :=
  match region with
  | none => current_region
  | some s => if s = "" then current_region else s

/-- Embedding of `RegionConfig.get_shard`:
`region = region or self.current_region` followed by
`self.REGION_SHARD_MAP.get(region, 'na')`. -/
def get_shard (current_region : String) (region : Option String) : String :=
  (REGION_SHARD_MAP.lookup (resolveRegion current_region region)).getD "na"

/-- Embedding of `RegionConfig.get_match_history_api_base`:
`region = region or self.current_region`, `shard = self.get_shard(region)`,
`endpoint = self.MATCH_HISTORY_QUERY_ENDPOINTS.get(shard, self.MATCH_HISTORY_QUERY_ENDPOINTS['na'])`,
then `f"https://{endpoint}"`. -/
def get_match_history_api_base (current_region : String) (region : Option String) : String :=
  let r := resolveRegion current_region region
  let shard := get_shard current_region (some r)
  let endpoint := (MATCH_HISTORY_QUERY_ENDPOINTS.lookup shard).getD
    ((MATCH_HISTORY_QUERY_ENDPOINTS.lookup "na").getD "")
  "https://" ++ endpoint

/-- Modelled from the spec: the spec sentence for C3 describes the endpoint as
"'https://' followed by the hostname obtained by mapping r to a shard via
REGION_SHARD_MAP (defaulting to shard 'na' when r is not in the table) and mapping
that shard to a hostname via MATCH_HISTORY_QUERY_ENDPOINTS (defaulting to the 'na'
entry when the shard is not in the table)".  Written independently of
`get_match_history_api_base` so the two can be compared. -/
def specMatchHistoryBase (r : String) : String :=
  let shard := (REGION_SHARD_MAP.lookup r).getD "na"
  let host := (MATCH_HISTORY_QUERY_ENDPOINTS.lookup shard).getD
    ((MATCH_HISTORY_QUERY_ENDPOINTS.lookup "na").getD "")
  "https://" ++ host

/-- Embedding of `RegionConfig.save_region`: assigns `self.current_region = region`
and returns `True` (the assignment cannot fail). -/
def save_region (_state : String) (region : String) : Bool × String :=
  (true, region)

/-- Embedding of `RegionConfig.set_region`: rejects region codes that are not in
`AVAILABLE_REGIONS`, otherwise delegates to `save_region`. -/
def set_region (state : String) (region : String) : Bool × String :=
  if region ∈ AVAILABLE_REGIONS.map Prod.fst then save_region state region
  else (false, state)

/-- States of `RegionConfig.current_region` reachable through `__init__`
(which sets `'na'`) and `set_region`. -/
inductive ReachableRegion : String → Prop where
  | start : ReachableRegion "na"
  | step (s r : String) : ReachableRegion s → ReachableRegion (set_region s r).2

/-! ## custom_monitoring_loop (modern_replay_injector_ui.py:1240-1315)

One iteration of the polling loop that actually runs
(`SessionMonitor.start_monitoring` is never invoked by the program).  A poll
result is `Option (Option String)`: `none` models `get_session_info()`
returning `None` (the loop then sleeps 1 second and `continue`s without
updating `previous_state`); `some cur` models a session whose `loopState`
field is `cur` (`None` when the key is absent).  Each poll comes with the
outcome of the loop's preliminary `backup_file` call (used only when the
injection branch is reached); `hasSel` models whether
`selected_host_replay` and `selected_injection_file` are both set (they do
not change while monitoring runs).  The loop-local `injection_ready` is
initialised `True` and never reassigned.

Two control-flow subtleties of the source are modelled exactly: the
missing-selection `continue` (lines 1265-1267) and the failed-backup
`continue` (lines 1283-1286) jump back to the top of the loop, skipping both
the `previous_state = current_state` update and the `time.sleep(0.5)` call.
Each iteration yields the list of actions performed (`'inject'` marks the
`inject_replay_file` call, `'restore'` the `restore_original` call), the
sleep length in milliseconds (0 on the `continue` paths), and the updated
`previous_state`. -/

/-- One iteration of `custom_monitoring_loop`'s while-loop body. -/
def uiMonitorStep (hasSel : Bool) (prev : Option String) (poll : Option (Option String))
    (backupOk : Bool) : List String × Nat × Option String :=
  match poll with
  | none => ([], 1000, prev)
  | some cur =>
    if cur = prev then ([], 500, cur)
    else if prev = some "MENUS" ∧ cur = some "REPLAY" then
      if hasSel = false then ([], 0, prev)
      else if backupOk = false then ([], 0, prev)
      else (["inject"], 500, cur)
    else if prev = some "REPLAY" ∧ cur = some "MENUS" then (["restore"], 500, cur)
    else ([], 500, cur)

/-- The monitoring loop run over a finite sequence of poll results (each
paired with that iteration's preliminary backup outcome), starting from a
given `previous_state`; records per-iteration actions and sleep lengths. -/
def uiMonitorRun (hasSel : Bool) (prev : Option String) :
    List (Option (Option String) × Bool) → List (List String × Nat)
  | [] => []
  | (p, bk) :: rest =>
    let s := uiMonitorStep hasSel prev p bk
    (s.1, s.2.1) :: uiMonitorRun hasSel s.2.2 rest

/-- The `previous_state` variable after the loop has processed a sequence of
poll results. -/
def uiRunPrev (hasSel : Bool) (prev : Option String) :
    List (Option (Option String) × Bool) → Option String
  | [] => prev
  | (p, bk) :: rest => uiRunPrev hasSel (uiMonitorStep hasSel prev p bk).2.2 rest

/-! ## ReplayFileManager (replay_file_manager.py)

String-level helpers first: `Path.stem` (CPython: `name[:i]` for
`i = name.rfind('.')` when `0 < i < len(name) - 1`, else `name`), and
`str.split('_backup_')[0]` (everything before the first occurrence of the
separator). -/

/-- Index of the last `'.'` in a character list (CPython `name.rfind('.')`),
`none` when there is no dot. -/
def lastDotIdx : List Char → Option Nat
  | [] => none
  | c :: rest =>
    match lastDotIdx rest with
    | some k => some (k + 1)
    | none => if c = '.' then some 0 else none

/-- Embedding of `pathlib.PurePath.stem`. -/
def stem (s : List Char) : List Char :=
  match lastDotIdx s with
  | some i => if 0 < i ∧ i + 1 < s.length then s.take i else s
  | none => s

/-- Everything before the first occurrence of `'_backup_'`
(Python `name.split('_backup_')[0]`). -/
def splitBackupHead : List Char → List Char
  | [] => []
  | c :: rest =>
    if ("_backup_".toList).isPrefixOf (c :: rest) then []
    else c :: splitBackupHead rest

/-- Decides whether `'_backup_'` occurs anywhere in the list (used to state
the side condition of the backup/restore round trip). -/
def hasBackupSub : List Char → Bool
  | [] => false
  | c :: rest => ("_backup_".toList).isPrefixOf (c :: rest) || hasBackupSub rest

/-- State of a `ReplayFileManager`: the visible file system (replay directory
and user files, keyed by name), the backup directory, and `self.current_backup`. -/
structure FMState where
  files : List (List Char × Nat)
  backups : List (List Char × Nat)
  current_backup : Option (List Char)
deriving DecidableEq

/-- Embedding of `ReplayFileManager.backup_file`: builds
`f"{replay_file.stem}_backup_{timestamp}.vrf"`, copies the host file into the
backup directory and records it in `current_backup`; returns `False` when the
copy raises (modelled: the host file does not exist). -/
def backup_file (fs : FMState) (replay_file : List Char) (timestamp : Nat) : Bool × FMState :=
  match fs.files.lookup replay_file with
  | none => (false, fs)
  | some c =>
    let backup_name := stem replay_file ++ "_backup_".toList ++ Nat.toDigits 10 timestamp
      ++ ".vrf".toList
    (true,
     { fs with backups := (backup_name, c) :: fs.backups, current_backup := some backup_name })

/-- Embedding of `ReplayFileManager.inject_replay_file`: backs up the host file
first, then `shutil.copy2(injection_file, host_file)`; returns `False` when the
backup fails or the copy raises (modelled: missing injection file, or
`SameFileError` when both paths coincide). -/
def inject_replay_file (fs : FMState) (host_file injection_file : List Char) (timestamp : Nat) :
    Bool × FMState :=
  let b := backup_file fs host_file timestamp
  if b.1 = false then (false, b.2)
  else if injection_file = host_file then (false, b.2)
  else
    match b.2.files.lookup injection_file with
    | none => (false, b.2)
    | some ci => (true, { b.2 with files := (host_file, ci) :: b.2.files })

/-- Embedding of `ReplayFileManager.restore_original_file`: fails when no backup
is recorded (or the recorded backup does not exist); otherwise recovers the
original name from the backup's stem by splitting at `'_backup_'`, appends
`'.vrf'`, and copies the backup there. -/
def restore_original_file (fs : FMState) : Bool × FMState :=
  match fs.current_backup with
  | none => (false, fs)
  | some b =>
    match fs.backups.lookup b with
    | none => (false, fs)
    | some c =>
      let original_name := splitBackupHead (stem b) ++ ".vrf".toList
      (true, { fs with files := (original_name, c) :: fs.files })

/-! ## Lockfile parsing (replay_metadata.py `_parse_lockfile`) -/

/-- Embedding of `ReplayMetadataFetcher._parse_lockfile`: splits the lockfile
content on `':'`; with at least five fields it records `parts[2]` as the port
and `parts[3]` as the password, otherwise it reports failure (`self.port` and
`self.password` stay unset, modelled by `none`). -/
def parse_lockfile (content : List Char) : Option (List Char × List Char) :=
  let parts := content.splitOn ':'
  if 5 ≤ parts.length then some (parts.getD 2 [], parts.getD 3 [])
  else none

/-! ## Match-id extraction (replay_metadata.py `extract_match_id_from_filename`) -/

/-- Removal of every occurrence of the substring `'.vrf'`
(Python `filename.replace('.vrf', '')`, scanning left to right). -/
def removeVrf : List Char → List Char
  | '.' :: 'v' :: 'r' :: 'f' :: rest => removeVrf rest
  | c :: rest => c :: removeVrf rest
  | [] => []

/-- Hexadecimal digit as accepted by `[0-9a-f]` under `re.IGNORECASE`. -/
def isHexChar (c : Char) : Bool :=
  ('0' ≤ c && c ≤ '9') || ('a' ≤ c && c ≤ 'f') || ('A' ≤ c && c ≤ 'F')

/-- Consumes exactly `n` hexadecimal digits from the front of the list. -/
def consumeHex : Nat → List Char → Option (List Char)
  | 0, s => some s
  | _ + 1, [] => none
  | n + 1, c :: s => if isHexChar c then consumeHex n s else none

/-- Consumes a single `'-'`. -/
def consumeDash : List Char → Option (List Char)
  | [] => none
  | c :: s => if c = '-' then some s else none

/-- Consumes dash-separated groups of hexadecimal digits with the given group
sizes, returning the unconsumed remainder. -/
def consumeGroups : List Nat → List Char → Option (List Char)
  | [], s => some s
  | [n], s => consumeHex n s
  | n :: m :: ns, s => ((consumeHex n s).bind consumeDash).bind (consumeGroups (m :: ns))

/-- Group sizes of the UUID pattern `[0-9a-f]{8}-[0-9a-f]{4}-[0-9a-f]{4}-[0-9a-f]{4}-[0-9a-f]{12}`. -/
def uuidGroups : List Nat := [8, 4, 4, 4, 12]

/-- Truth value of `re.match(r'^...$', s, re.IGNORECASE)` for the UUID pattern:
Python's `'$'` matches at the end of the string or just before a newline at the
end of the string. -/
def uuidRegexAccepts (s : List Char) : Bool :=
  (consumeGroups uuidGroups s == some []) || (consumeGroups uuidGroups s == some ['\n'])

/-- Modelled from the spec: the claim's "UUID pattern of 8-4-4-4-12 hexadecimal
digits (case-insensitive)" as an exact match of the whole string. -/
def uuidExact (s : List Char) : Bool :=
  consumeGroups uuidGroups s == some []

/-- Embedding of `ReplayMetadataFetcher.extract_match_id_from_filename`:
removes every `'.vrf'`, then validates against the UUID regular expression. -/
def extract_match_id_from_filename (filename : List Char) : Option (List Char) :=
  let match_id := removeVrf filename
  if uuidRegexAccepts match_id then some match_id else none

/-! ## Metadata dictionaries (replay_metadata.py `get_replay_metadata`) -/

/-- Python dictionary values appearing in the metadata dictionaries. -/
inductive PyVal where
  | str (s : String)
  | int (n : Int)
deriving DecidableEq

/-- The `matchInfo` sub-dictionary of a match-details response (fields read
with `.get`, hence optional). -/
structure MatchInfoData where
  mapId : Option String
  queueID : Option String
  matchId : Option String
  gameStartMillis : Option Int
deriving DecidableEq

/-- One entry of the `players` list of a match-details response. -/
structure PlayerData where
  subject : Option String
  characterId : Option String
  teamId : Option String
deriving DecidableEq

/-- One entry of the `teams` list of a match-details response. -/
structure TeamData where
  teamId : Option String
  roundsWon : Option Int
deriving DecidableEq

/-- A match-details response. -/
structure MatchDetailsData where
  matchInfo : Option MatchInfoData
  players : Option (List PlayerData)
  teams : Option (List TeamData)
deriving DecidableEq

/-- One entry of a match-history response. -/
structure HistEntryData where
  MatchID : Option String
  MapID : Option String
  QueueID : Option String
  GameStartTime : Option Int
deriving DecidableEq

/-- A replay-summary response. -/
structure SummaryData where
  GameVersion : Option String
  Checksum : Option String
deriving DecidableEq

/-- Internal map names to display names (`_map_id_to_name`'s table). -/
def map_name_map : List (String × String) :=
  [("Ascent", "Ascent"), ("Bonsai", "Split"), ("Canyon", "Fracture"),
   ("Duality", "Bind"), ("Foxtrot", "Breeze"), ("Triad", "Haven"),
   ("Port", "Icebox"), ("Pitt", "Pearl"), ("Jam", "Lotus"),
   ("Juliett", "Sunset"), ("Infinity", "Abyss"), ("Rook", "Corrode"),
   ("HURM_Alley", "District"), ("HURM_Bowl", "Kasbah"), ("HURM_Helix", "Drift"),
   ("HURM_Yard", "Piazza"), ("HURM_HighTide", "Glitch"),
   ("Poveglia", "The Range"), ("PovegliaV2", "The Range"), ("NPEV2", "Basic Training")]

/-- Embedding of `_map_id_to_name`: takes the path's last `/`-component and
maps it through the display-name table (falling back to the component itself). -/
def map_id_to_name (map_id : String) : String :=
  let map_name := if map_id.contains '/' then (map_id.splitOn "/").getLastD map_id else map_id
  (map_name_map.lookup map_name).getD map_name

/-- Queue ids to display modes (`_queue_id_to_mode`'s table). -/
def queue_map : List (String × String) :=
  [("competitive", "Competitive"), ("unrated", "Unrated"), ("spikerush", "Spike Rush"),
   ("deathmatch", "Deathmatch"), ("escalation", "Escalation"),
   ("replication", "Replication"), ("snowball", "Snowball Fight"),
   ("swiftplay", "Swiftplay")]

/-- Embedding of `_queue_id_to_mode`. -/
def queue_id_to_mode (queue_id : String) : String :=
  (queue_map.lookup queue_id.toLower).getD queue_id

/-- Character ids to agent names (`_character_id_to_agent`'s table). -/
def character_map : List (String × String) :=
  [("add6443a-41bd-e414-f6ad-e58d267f4e95", "Jett"),
   ("f94c3b30-42be-e959-889c-5aa313dba261", "Raze"),
   ("a3bfb853-43b2-7238-a4f1-ad90e9e46bcc", "Reyna"),
   ("eb93336a-449b-9c1b-0a54-a891f7921d69", "Phoenix"),
   ("5f8d3a7f-467b-97f3-062c-13acf203c006", "Breach"),
   ("6f2a04ca-43e0-be17-7f36-b3908627744d", "Skye"),
   ("117ed9e3-49f3-6512-3ccf-0cada7e3823b", "Cypher"),
   ("1e58de9c-4950-5125-93e9-a0aee9f98746", "Killjoy"),
   ("569fdd95-4d10-43ab-ca70-79becc718b46", "Sage"),
   ("320b2a48-4d9b-a075-30f1-1f93a9b638fa", "Sova"),
   ("707eab51-4836-f488-046a-cda6bf494859", "Viper"),
   ("8e253930-4c05-31dd-1b6c-968525494517", "Omen"),
   ("9f0d8ba9-4140-b941-57d3-a7ad57c6b417", "Brimstone"),
   ("41fb69c1-4189-7b37-f117-bcaf1e96f1bf", "Astra"),
   ("7f94d92c-4234-0a36-9646-3a87eb8b5c89", "Yoru"),
   ("22697a3d-45bf-8dd7-4fec-84a9e28c69d7", "Chamber"),
   ("bb2a4828-46eb-8cd1-e765-15848195d751", "Neon"),
   ("a5e4c8a6-0ea5-4e0f-97a4-70a6e4e60ba4", "Fade"),
   ("95b78ed7-4637-86d9-7e41-71ba8c293152", "Harbor"),
   ("e370fa57-4757-3604-3648-499e1f642d3f", "Gekko"),
   ("cc8b64c8-4b25-4ff9-6e7f-37b4da43d235", "Deadlock"),
   ("0e38b510-41a8-5780-5e8f-568b2a4f2d6c", "Iso"),
   ("1dbf2edd-7729-4459-b1ad-0b8dc52a8afb", "Clove"),
   ("efba5359-4016-a1e5-7626-b1ae76895940", "Vyse")]

/-- Embedding of `_character_id_to_agent`. -/
def character_id_to_agent (character_id : String) : String :=
  (character_map.lookup character_id).getD character_id

/-- Insertion into a Python dict modelled as an insertion-ordered association
list: updating an existing key keeps its position, a new key is appended. -/
def dictInsert (k : String) (v : Int) (d : List (String × Int)) : List (String × Int) :=
  if d.any (fun p => p.1 = k) then d.map (fun p => if p.1 = k then (k, v) else p)
  else d ++ [(k, v)]

/-- Embedding of `_extract_final_score`. -/
def extract_final_score (teams : Option (List TeamData)) (player_team : String) : String :=
  let ts := teams.getD []
  if ts.length < 2 then "Unknown"
  else
    let team_scores := ts.foldl
      (fun d team => dictInsert (team.teamId.getD "") (team.roundsWon.getD 0) d) []
    if 2 ≤ team_scores.length then
      let team_ids := team_scores.map Prod.fst
      if player_team ≠ "" ∧ team_scores.any (fun p => p.1 = player_team) then
        let player_score := (team_scores.lookup player_team).getD 0
        match team_ids.find? (fun tid => tid ≠ player_team) with
        | some opponent_team =>
          if opponent_team = "" then "Unknown"
          else
            let opponent_score := (team_scores.lookup opponent_team).getD 0
            if opponent_score < player_score then
              toString player_score ++ "-" ++ toString opponent_score ++ " (W)"
            else if player_score < opponent_score then
              toString player_score ++ "-" ++ toString opponent_score ++ " (L)"
            else
              toString player_score ++ "-" ++ toString opponent_score ++ " (T)"
        | none => "Unknown"
      else
        let scores := team_scores.map Prod.snd
        toString (scores.getD 0 0) ++ "-" ++ toString (scores.getD 1 0)
    else "Unknown"

/-- Embedding of `_parse_match_details` (the try-body; the helpers it calls are
total, so the except-branch is unreachable). -/
def parse_match_details (user_id : Option String) (md : MatchDetailsData) (filename : String) :
    List (String × PyVal) :=
  let mi := md.matchInfo.getD ⟨none, none, none, none⟩
  let map_id := mi.mapId.getD "/Game/Maps/Unknown/Unknown"
  let map_name := map_id_to_name map_id
  let queue_id := mi.queueID.getD ""
  let mode := queue_id_to_mode queue_id
  let pl := (md.players.getD []).find? (fun p => p.subject == user_id)
  let player_agent :=
    match pl with
    | some p => character_id_to_agent (p.characterId.getD "")
    | none => "Unknown"
  let player_team : Option String :=
    match pl with
    | some p => some (p.teamId.getD "")
    | none => none
  let score := extract_final_score md.teams (player_team.getD "")
  [("filename", .str filename), ("map", .str map_name), ("mode", .str mode),
   ("agent", .str player_agent), ("score", .str score),
   ("match_id", .str ((md.matchInfo.getD ⟨none, none, none, none⟩).matchId.getD "")),
   ("game_start", .int (mi.gameStartMillis.getD 0))]

/-- Embedding of `_parse_match_history_entry` (the try-body). -/
def parse_match_history_entry (m : HistEntryData) (filename : String) : List (String × PyVal) :=
  [("filename", .str filename),
   ("map", .str (map_id_to_name (m.MapID.getD "/Game/Maps/Unknown/Unknown"))),
   ("mode", .str (queue_id_to_mode (m.QueueID.getD ""))),
   ("agent", .str "Unknown"), ("score", .str "Unknown"),
   ("match_id", .str (m.MatchID.getD "")),
   ("game_start", .int (m.GameStartTime.getD 0))]

/-- The `for match in match_history` loop of `get_replay_metadata`: first entry
whose `MatchID` equals the extracted match id is parsed. -/
def search_history (match_id : String) (hist : List HistEntryData) (filename : String) :
    Option (List (String × PyVal)) :=
  match hist with
  | [] => none
  | m :: rest =>
    if m.MatchID == some match_id then some (parse_match_history_entry m filename)
    else search_history match_id rest filename

/-- Embedding of `ReplayMetadataFetcher.get_replay_metadata`.  The region
(`none` models a falsy `self.region`), the user id, and the outcome of each of
the three network fetches are oracle inputs. -/
def get_replay_metadata (region : Option String) (user_id : Option String)
    (replay_filename : String) (match_details : Option MatchDetailsData)
    (match_history : Option (List HistEntryData)) (replay_summary : Option SummaryData) :
    List (String × PyVal) :=
  match region with
  | none =>
    [("filename", .str replay_filename), ("map", .str "No Region Set"),
     ("mode", .str "No Region Set"), ("agent", .str "No Region Set"),
     ("score", .str "No Region Set"), ("error", .str "Please select a region first")]
  | some _ =>
    match extract_match_id_from_filename replay_filename.toList with
    | none =>
      [("filename", .str replay_filename), ("map", .str "Unknown"),
       ("mode", .str "Unknown"), ("agent", .str "Unknown"),
       ("score", .str "Unknown"), ("error", .str "Invalid filename format")]
    | some mid =>
      match match_details with
      | some md => parse_match_details user_id md replay_filename
      | none =>
        match (match match_history with
               | some hist => search_history (String.mk mid) hist replay_filename
               | none => none) with
        | some d => d
        | none =>
          match replay_summary with
          | some s =>
            [("filename", .str replay_filename), ("map", .str "Unknown"),
             ("mode", .str "Unknown"), ("agent", .str "Unknown"),
             ("score", .str "Unknown"),
             ("game_version", .str (s.GameVersion.getD "Unknown")),
             ("checksum", .str (s.Checksum.getD "Unknown"))]
          | none =>
            [("filename", .str replay_filename), ("map", .str "Unknown"),
             ("mode", .str "Unknown"), ("agent", .str "Unknown"),
             ("score", .str "Unknown"), ("error", .str "Could not fetch match data")]

/-! ## Background threads (modern_replay_injector_ui.py)

Abstract interleaving model of the two thread-spawning sites:
`refresh_replay_list` starts a `load_metadata_async` thread unconditionally
(lines 1077-1078), and it is invoked from the Refresh button (line 592), from
`__init__` at startup (line 132), and after a region change in
`save_region_selection` (line 462); `start_injection_monitoring` starts a
`custom_monitoring_loop` thread after disabling the Start button (lines
1206-1238); `stop_monitoring` clears `monitoring_active` and re-enables Start;
a running monitoring thread only exits when it observes
`monitoring_active == False` at the top of its loop. -/

/-- Abstract UI/thread state: counts of running metadata-fetch and
session-poll threads, the `monitoring_active` flag, and whether the Start
button is enabled. -/
structure UIState where
  metaThreads : Nat
  monThreads : Nat
  monitoring_active : Bool
  start_enabled : Bool
deriving DecidableEq

/-- Events: a call to `refresh_replay_list` (Refresh button, the startup call
in `__init__`, or the refresh after a region change — every one spawns a
`load_metadata_async` thread), termination of one metadata thread, a Start
click, a Stop click, and a monitoring thread observing the cleared flag and
exiting. -/
inductive UIEvent where
  | refreshCall
  | metaFinish
  | startClick
  | stopClick
  | monObserveStop
deriving DecidableEq

/-- The state at program start: no threads, monitoring inactive, Start enabled. -/
def uiStart : UIState := ⟨0, 0, false, true⟩

/-- One UI/thread event. -/
def uiStep (s : UIState) : UIEvent → UIState
  | .refreshCall => { s with metaThreads := s.metaThreads + 1 }
  | .metaFinish =>
    if 0 < s.metaThreads then { s with metaThreads := s.metaThreads - 1 } else s
  | .startClick =>
    if s.start_enabled then
      { s with monitoring_active := true, start_enabled := false,
               monThreads := s.monThreads + 1 }
    else s
  | .stopClick =>
    if s.start_enabled then s
    else { s with monitoring_active := false, start_enabled := true }
  | .monObserveStop =>
    if s.monitoring_active = false ∧ 0 < s.monThreads then
      { s with monThreads := s.monThreads - 1 }
    else s

/-- Execution of a sequence of events. -/
def uiRun (s : UIState) : List UIEvent → UIState
  | [] => s
  | e :: es => uiRun (uiStep s e) es

/-- Number of Start clicks in an event sequence. -/
def countStart (es : List UIEvent) : Nat :=
  es.countP (fun e => e = UIEvent.startClick)

/-- Number of `refresh_replay_list` invocations in an event sequence. -/
def countRefreshCall (es : List UIEvent) : Nat :=
  es.countP (fun e => e = UIEvent.refreshCall)

/-- The label-record shape claimed for `get_replay_metadata`: a dictionary
holding the keys `'filename'` (bound to the input filename), `'map'`,
`'mode'`, `'agent'` and `'score'`. -/
def dictOk (fn : String) (d : List (String × PyVal)) : Prop :=
  d.lookup "filename" = some (PyVal.str fn) ∧ (d.lookup "map").isSome = true ∧
  (d.lookup "mode").isSome = true ∧ (d.lookup "agent").isSome = true ∧
  (d.lookup "score").isSome = true

/-! ## Theorems -/

/-- Characterisation of the actions fired at the i-th poll of
`custom_monitoring_loop`, for an arbitrary starting `previous_state`. -/
theorem ui_monitor_events_char (hasSel : Bool) (prev : Option String)
    (polls : List (Option (Option String) × Bool)) (i : Nat) (h : i < polls.length) :
    ("inject" ∈ ((uiMonitorRun hasSel prev polls).getD i ([], 0)).1 ↔
       uiRunPrev hasSel prev (polls.take i) = some "MENUS" ∧
         (polls.getD i (none, false)).1 = some (some "REPLAY") ∧
         hasSel = true ∧ (polls.getD i (none, false)).2 = true) ∧
    ("restore" ∈ ((uiMonitorRun hasSel prev polls).getD i ([], 0)).1 ↔
       uiRunPrev hasSel prev (polls.take i) = some "REPLAY" ∧
         (polls.getD i (none, false)).1 = some (some "MENUS")) := by
  induction polls generalizing prev i with
  | nil => exact absurd h (by simp)
  | cons pb rest ih =>
    obtain ⟨p, bk⟩ := pb
    cases i with
    | zero =>
      cases p with
      | none =>
        simp [uiMonitorRun, uiMonitorStep, uiRunPrev]
      | some cur =>
        by_cases hcp : cur = prev
        · constructor
          · simp only [uiMonitorRun, uiMonitorStep, uiRunPrev, if_pos hcp,
              List.getD_cons_zero, List.take_zero, List.not_mem_nil, false_iff,
              Option.some.injEq]
            rintro ⟨h1, h2, -, -⟩
            rw [h1] at hcp
            rw [h2] at hcp
            simp at hcp
          · simp only [uiMonitorRun, uiMonitorStep, uiRunPrev, if_pos hcp,
              List.getD_cons_zero, List.take_zero, List.not_mem_nil, false_iff,
              Option.some.injEq]
            rintro ⟨h1, h2⟩
            rw [h1] at hcp
            rw [h2] at hcp
            simp at hcp
        · by_cases htr : prev = some "MENUS" ∧ cur = some "REPLAY"
          · obtain ⟨hp, hc⟩ := htr
            subst hp; subst hc
            cases hasSel with
            | false => simp [uiMonitorRun, uiMonitorStep, uiRunPrev, hcp]
            | true =>
              cases bk with
              | false => simp [uiMonitorRun, uiMonitorStep, uiRunPrev, hcp]
              | true => simp [uiMonitorRun, uiMonitorStep, uiRunPrev, hcp]
          · by_cases hre : prev = some "REPLAY" ∧ cur = some "MENUS"
            · obtain ⟨hp, hc⟩ := hre
              subst hp; subst hc
              simp [uiMonitorRun, uiMonitorStep, uiRunPrev, hcp]
            · constructor
              · simp only [uiMonitorRun, uiMonitorStep, uiRunPrev, if_neg hcp, if_neg htr,
                  if_neg hre, List.getD_cons_zero, List.take_zero, List.not_mem_nil,
                  false_iff, Option.some.injEq]
                rintro ⟨h1, h2, -, -⟩
                exact htr ⟨h1, h2⟩
              · simp only [uiMonitorRun, uiMonitorStep, uiRunPrev, if_neg hcp, if_neg htr,
                  if_neg hre, List.getD_cons_zero, List.take_zero, List.not_mem_nil,
                  false_iff, Option.some.injEq]
                rintro ⟨h1, h2⟩
                exact hre ⟨h1, h2⟩
    | succ i' =>
      have h' : i' < rest.length := by simpa using h
      simpa [uiMonitorRun, uiRunPrev] using ih (uiMonitorStep hasSel prev p bk).2.2 i' h'

/-- C1 counterexample: with both files selected, after a poll pair
MENUS, REPLAY whose preliminary backup fails (so the `continue` at
modern_replay_injector_ui.py:1283-1286 skips the `previous_state` update),
the next poll performs the injection although the pair of consecutively
polled states is REPLAY, REPLAY — not MENUS, REPLAY. -/
theorem inject_retrigger_on_replay_pair :
    ((uiMonitorRun true none
        [(some (some "MENUS"), true), (some (some "REPLAY"), false),
         (some (some "REPLAY"), true)]).getD 1 ([], 0)).1 = [] ∧
    "inject" ∈ ((uiMonitorRun true none
        [(some (some "MENUS"), true), (some (some "REPLAY"), false),
         (some (some "REPLAY"), true)]).getD 2 ([], 0)).1 ∧
    (([(some (some "MENUS"), true), (some (some "REPLAY"), false),
       (some (some "REPLAY"), true)] :
        List (Option (Option String) × Bool)).getD 1 (none, false)).1 =
      some (some "REPLAY") ∧
    (([(some (some "MENUS"), true), (some (some "REPLAY"), false),
       (some (some "REPLAY"), true)] :
        List (Option (Option String) × Bool)).getD 2 (none, false)).1 =
      some (some "REPLAY") := by
  decide

/-- C1 amended: in `custom_monitoring_loop`, the restore action fires exactly
at a session poll whose tracked `previous_state` is `'REPLAY'` and whose
current state is `'MENUS'`, and the injection action (the
`inject_replay_file` call) fires exactly at a session poll whose tracked
`previous_state` is `'MENUS'`, whose current state is `'REPLAY'`, with both
files selected and the preliminary backup succeeding.  Because the
missing-selection and failed-backup paths skip the `previous_state` update,
the tracked `previous_state` can lag the polled states, so injection can fire
at a poll whose preceding polled state was already `'REPLAY'`. -/
theorem ui_monitor_triggers_iff (hasSel : Bool)
    (polls : List (Option (Option String) × Bool)) (i : Nat) (h : i < polls.length) :
    ("inject" ∈ ((uiMonitorRun hasSel none polls).getD i ([], 0)).1 ↔
       uiRunPrev hasSel none (polls.take i) = some "MENUS" ∧
         (polls.getD i (none, false)).1 = some (some "REPLAY") ∧
         hasSel = true ∧ (polls.getD i (none, false)).2 = true) ∧
    ("restore" ∈ ((uiMonitorRun hasSel none polls).getD i ([], 0)).1 ↔
       uiRunPrev hasSel none (polls.take i) = some "REPLAY" ∧
         (polls.getD i (none, false)).1 = some (some "MENUS")) :=
  ui_monitor_events_char hasSel none polls i h

/-- Witness for C1: on the poll sequence MENUS, REPLAY with selections
present and the backup succeeding, the second poll performs the injection. -/
theorem ui_monitor_triggers_iff_witness :
    (1 < ([(some (some "MENUS"), true), (some (some "REPLAY"), true)] :
        List (Option (Option String) × Bool)).length) ∧
    (("inject" ∈ ((uiMonitorRun true none
          [(some (some "MENUS"), true), (some (some "REPLAY"), true)]).getD 1 ([], 0)).1 ↔
        uiRunPrev true none
            ([(some (some "MENUS"), true), (some (some "REPLAY"), true)].take 1) =
          some "MENUS" ∧
        ([(some (some "MENUS"), true), (some (some "REPLAY"), true)].getD 1
            (none, false)).1 = some (some "REPLAY") ∧
        true = true ∧
        ([(some (some "MENUS"), true), (some (some "REPLAY"), true)].getD 1
            (none, false)).2 = true) ∧
     ("restore" ∈ ((uiMonitorRun true none
          [(some (some "MENUS"), true), (some (some "REPLAY"), true)]).getD 1 ([], 0)).1 ↔
        uiRunPrev true none
            ([(some (some "MENUS"), true), (some (some "REPLAY"), true)].take 1) =
          some "REPLAY" ∧
        ([(some (some "MENUS"), true), (some (some "REPLAY"), true)].getD 1
            (none, false)).1 = some (some "MENUS"))) :=
  ⟨by decide, ui_monitor_triggers_iff true
    [(some (some "MENUS"), true), (some (some "REPLAY"), true)] 1 (by decide)⟩

/-- The resolved region is a fixed point of another resolution round (as
performed by the nested `get_shard` call). -/
theorem resolveRegion_idem (cur : String) (region : Option String) :
    resolveRegion cur (some (resolveRegion cur region)) = resolveRegion cur region := by
  cases region with
  | none => simp [resolveRegion]
  | some s =>
    by_cases hs : s = ""
    · subst hs
      simp [resolveRegion]
    · simp [resolveRegion, hs]

/-- C3 counterexample: at the falsy region `''` with `current_region = 'eu'`
(reachable via `set_region('eu')`), the program substitutes `current_region`
and returns the eu endpoint, not the `'na'`-defaulting table composition the
claim describes for every region code. -/
theorem get_match_history_api_base_falsy_region :
    get_match_history_api_base "eu" (some "") = "https://euw3.pp.sgp.pvp.net" ∧
    specMatchHistoryBase "" = "https://usw2.pp.sgp.pvp.net" ∧
    (("https://euw3.pp.sgp.pvp.net" : String) == "https://usw2.pp.sgp.pvp.net") = false := by
  decide

/-- C3 amended: `get_match_history_api_base` first replaces a falsy region
argument (`None` or `''`) by `current_region`, and then returns `'https://'`
followed by the spec's static table composition — shard via
`REGION_SHARD_MAP` defaulting to `'na'`, hostname via
`MATCH_HISTORY_QUERY_ENDPOINTS` defaulting to the `'na'` entry — applied to
the resolved region; in particular, on every truthy region code it is exactly
the claimed table lookup. -/
theorem get_match_history_api_base_resolved_spec (cur : String) (region : Option String) :
    get_match_history_api_base cur region = specMatchHistoryBase (resolveRegion cur region) ∧
    (∀ r : String, r ≠ "" → get_match_history_api_base cur (some r) = specMatchHistoryBase r) := by
  constructor
  · unfold get_match_history_api_base specMatchHistoryBase get_shard
    simp only [resolveRegion_idem]
  · intro r hr
    have hres : resolveRegion cur (some r) = r := by simp [resolveRegion, hr]
    unfold get_match_history_api_base specMatchHistoryBase get_shard
    simp only [resolveRegion_idem, hres]

/-- Witness for C3 at a concrete truthy region code. -/
theorem get_match_history_api_base_resolved_spec_witness :
    get_match_history_api_base "na" (some "eu") = specMatchHistoryBase "eu" :=
  (get_match_history_api_base_resolved_spec "na" (some "eu")).2 "eu" (by decide)

/-- C4 counterexample: an iteration whose poll returns no session sleeps 1000
milliseconds, and a MENUS to REPLAY iteration that aborts through a
`continue` (here: no files selected) does not sleep at all — so not every
iteration, and not even every session-returning iteration, waits 0.5 seconds
after polling. -/
theorem ui_monitor_sleep_not_500 :
    (uiMonitorRun true none [((none : Option (Option String)), true)]).getD 0 ([], 0) =
      ([], 1000) ∧
    (uiMonitorRun false none
        [(some (some "MENUS"), true), (some (some "REPLAY"), true)]).getD 1 ([], 0) =
      ([], 0) ∧
    ((1000 : Nat) == 500) = false ∧ ((0 : Nat) == 500) = false := by
  decide

/-- C4 amended: an iteration whose poll returns no session sleeps 1 second;
an iteration that detects MENUS to REPLAY but aborts through `continue`
(missing selections or failed preliminary backup) skips the sleep entirely;
every other iteration whose poll returns a session sleeps 0.5 seconds before
the next poll. -/
theorem ui_monitor_sleep_durations (hasSel : Bool) (prev cur : Option String) (bk : Bool) :
    (uiMonitorStep hasSel prev none bk).2.1 = 1000 ∧
    (uiMonitorStep hasSel prev (some cur) bk).2.1 =
      (if prev = some "MENUS" ∧ cur = some "REPLAY" ∧ (hasSel = false ∨ bk = false)
       then 0 else 500) := by
  refine ⟨rfl, ?_⟩
  by_cases hcp : cur = prev
  · have hcond : ¬(prev = some "MENUS" ∧ cur = some "REPLAY" ∧
        (hasSel = false ∨ bk = false)) := by
      rintro ⟨h1, h2, -⟩
      rw [hcp, h1] at h2
      simp at h2
    simp only [uiMonitorStep]
    rw [if_pos hcp, if_neg hcond]
  · by_cases htr : prev = some "MENUS" ∧ cur = some "REPLAY"
    · cases hasSel with
      | false => simp [uiMonitorStep, hcp, htr]
      | true =>
        cases bk with
        | false => simp [uiMonitorStep, hcp, htr]
        | true => simp [uiMonitorStep, hcp, htr]
    · by_cases hre : prev = some "REPLAY" ∧ cur = some "MENUS"
      · simp [uiMonitorStep, hcp, htr, hre]
      · simp only [uiMonitorStep]
        rw [if_neg hcp, if_neg htr, if_neg hre,
          if_neg (fun hx => htr ⟨hx.1, hx.2.1⟩)]

/-- C7: `set_region` accepts exactly the codes of `AVAILABLE_REGIONS` (leaving
the state unchanged otherwise), and every state of `current_region` reachable
through `__init__` and `set_region` is a code of `AVAILABLE_REGIONS`. -/
theorem region_config_invariant :
    (∀ s r, r ∈ AVAILABLE_REGIONS.map Prod.fst → set_region s r = (true, r)) ∧
    (∀ s r, r ∉ AVAILABLE_REGIONS.map Prod.fst → set_region s r = (false, s)) ∧
    (∀ s, ReachableRegion s → s ∈ AVAILABLE_REGIONS.map Prod.fst) := by
  refine ⟨?_, ?_, ?_⟩
  · intro s r hr
    simp [set_region, save_region, hr]
  · intro s r hr
    simp [set_region, hr]
  · intro s h
    induction h with
    | start => decide
    | step s r _ ih =>
      by_cases hr : r ∈ AVAILABLE_REGIONS.map Prod.fst
      · simpa [set_region, save_region, hr] using hr
      · simpa [set_region, save_region, hr] using ih

/-- Witness for C7 at concrete inputs. -/
theorem region_config_invariant_witness :
    set_region "na" "eu" = (true, "eu") ∧ set_region "na" "xx" = (false, "na") ∧
    "na" ∈ AVAILABLE_REGIONS.map Prod.fst :=
  ⟨region_config_invariant.1 "na" "eu" (by decide),
   region_config_invariant.2.1 "na" "xx" (by decide),
   region_config_invariant.2.2 "na" ReachableRegion.start⟩

/-- A dot-free list has no last-dot index. -/
theorem noDot_lastDotIdx (t : List Char) (h : '.' ∉ t) : lastDotIdx t = none := by
  induction t with
  | nil => rfl
  | cons c rest ih =>
    have hc : ¬ c = '.' := by
      intro e
      exact h (by simp [e])
    have hr : '.' ∉ rest := fun hm => h (List.mem_cons_of_mem _ hm)
    simp [lastDotIdx, ih hr, hc]

/-- The last dot of `x ++ '.' :: t` with dot-free `t` sits at index `x.length`. -/
theorem lastDotIdx_append_dot (x t : List Char) (h : '.' ∉ t) :
    lastDotIdx (x ++ '.' :: t) = some x.length := by
  induction x with
  | nil => simp [lastDotIdx, noDot_lastDotIdx t h]
  | cons c x' ih => simp [lastDotIdx, ih]

/-- `Path.stem` drops exactly the final dot-free extension. -/
theorem stem_append (x t : List Char) (hx : x ≠ []) (ht : '.' ∉ t) (htne : t ≠ []) :
    stem (x ++ '.' :: t) = x := by
  have hidx := lastDotIdx_append_dot x t ht
  have hxlen : 0 < x.length := List.length_pos.2 hx
  have htlen : 0 < t.length := List.length_pos.2 htne
  have hcond : 0 < x.length ∧ x.length + 1 < (x ++ '.' :: t).length := by
    refine ⟨hxlen, ?_⟩
    simp only [List.length_append, List.length_cons]
    omega
  rw [stem.eq_def, hidx]
  show (if 0 < x.length ∧ x.length + 1 < (x ++ '.' :: t).length then
      List.take x.length (x ++ '.' :: t) else x ++ '.' :: t) = x
  rw [if_pos hcond, List.take_append_of_le_length (le_refl _), List.take_length]

/-- If `'_backup_'` is a prefix of `t ++ '_backup_' ++ r` starting strictly
inside the short block `t`, then `t` must be exactly `'_backup'` (the only
border of the separator). -/
theorem sep_not_prefix_mid (t r : List Char)
    (hpre : ("_backup_".toList).isPrefixOf (t ++ "_backup_".toList ++ r) = true)
    (hlo : 1 ≤ t.length) (hhi : t.length ≤ 7) : t = "_backup".toList := by
  have hp : ("_backup_".toList) <+: (t ++ "_backup_".toList ++ r) :=
    List.isPrefixOf_iff_prefix.1 hpre
  have htake := List.prefix_iff_eq_take.1 hp
  have hlen8 : ("_backup_".toList).length = 8 := by decide
  rw [hlen8, List.append_assoc, List.take_append_eq_append_take,
    List.take_of_length_le (by omega), List.take_append_of_le_length (by rw [hlen8]; omega)]
    at htake
  have hsplit : List.take t.length ("_backup_".toList) ++ List.drop t.length ("_backup_".toList) =
      t ++ List.take (8 - t.length) ("_backup_".toList) := by
    rw [List.take_append_drop]
    exact htake
  have hlent : (List.take t.length ("_backup_".toList)).length = t.length := by
    rw [List.length_take, hlen8]
    omega
  obtain ⟨hinjl, hinjr⟩ := List.append_inj hsplit hlent
  have hcase : t.length = 1 ∨ t.length = 2 ∨ t.length = 3 ∨ t.length = 4 ∨ t.length = 5 ∨
      t.length = 6 ∨ t.length = 7 := by omega
  rcases hcase with hk | hk | hk | hk | hk | hk | hk
  · rw [hk] at hinjr; exact absurd hinjr (by decide)
  · rw [hk] at hinjr; exact absurd hinjr (by decide)
  · rw [hk] at hinjr; exact absurd hinjr (by decide)
  · rw [hk] at hinjr; exact absurd hinjr (by decide)
  · rw [hk] at hinjr; exact absurd hinjr (by decide)
  · rw [hk] at hinjr; exact absurd hinjr (by decide)
  · rw [hk] at hinjl
    exact hinjl.symm.trans (by decide)

/-- Splitting at `'_backup_'` recovers the original stem when the stem neither
contains the separator nor ends with `'_backup'`. -/
theorem splitBackupHead_append (s r : List Char)
    (h1 : hasBackupSub s = false)
    (h2 : ("_backup".toList).isSuffixOf s = false) :
    splitBackupHead (s ++ "_backup_".toList ++ r) = s := by
  induction s with
  | nil =>
    have hp : ("_backup_".toList).isPrefixOf ('_' :: ("backup_".toList ++ r)) = true :=
      List.isPrefixOf_iff_prefix.2 (List.prefix_append ("_backup_".toList) r)
    show splitBackupHead ('_' :: ("backup_".toList ++ r)) = []
    simp [splitBackupHead, hp]
  | cons c s' ih =>
    have hparts : ("_backup_".toList).isPrefixOf (c :: s') = false ∧ hasBackupSub s' = false := by
      rw [hasBackupSub] at h1
      exact ⟨(Bool.or_eq_false_iff.1 h1).1, (Bool.or_eq_false_iff.1 h1).2⟩
    have hs2 : ("_backup".toList).isSuffixOf s' = false := by
      cases hxx : ("_backup".toList).isSuffixOf s' with
      | false => rfl
      | true =>
        exfalso
        have hsx : ("_backup".toList).isSuffixOf (c :: s') = true :=
          List.isSuffixOf_iff_suffix.2
            ((List.isSuffixOf_iff_suffix.1 hxx).trans (List.suffix_cons c s'))
        rw [h2] at hsx
        cases hsx
    have hcond : ("_backup_".toList).isPrefixOf (c :: (s' ++ "_backup_".toList ++ r)) = false := by
      cases hcc : ("_backup_".toList).isPrefixOf (c :: (s' ++ "_backup_".toList ++ r)) with
      | false => rfl
      | true =>
        exfalso
        by_cases hlen : 8 ≤ (c :: s').length
        · have hcc2 : ("_backup_".toList).isPrefixOf
              ((c :: s') ++ ("_backup_".toList ++ r)) = true := by
            rw [show (c :: s') ++ ("_backup_".toList ++ r) =
                c :: (s' ++ "_backup_".toList ++ r) from by simp]
            exact hcc
          have hpp : ("_backup_".toList) <+: ((c :: s') ++ ("_backup_".toList ++ r)) :=
            List.isPrefixOf_iff_prefix.1 hcc2
          have ht := List.prefix_iff_eq_take.1 hpp
          have hlen8 : ("_backup_".toList).length = 8 := by decide
          rw [hlen8, List.take_append_of_le_length hlen] at ht
          have hpc : ("_backup_".toList) <+: (c :: s') := by
            rw [List.prefix_iff_eq_take, hlen8]
            exact ht
          have hb : ("_backup_".toList).isPrefixOf (c :: s') = true :=
            List.isPrefixOf_iff_prefix.2 hpc
          rw [hparts.1] at hb
          cases hb
        · have h7 : (c :: s').length ≤ 7 := by omega
          have h1l : 1 ≤ (c :: s').length := by simp
          have hcc' : ("_backup_".toList).isPrefixOf
              ((c :: s') ++ "_backup_".toList ++ r) = true := hcc
          have ht := sep_not_prefix_mid (c :: s') r hcc' h1l h7
          have hsfx : ("_backup".toList).isSuffixOf (c :: s') = true := by
            rw [ht]
            exact List.isSuffixOf_iff_suffix.2 (List.suffix_refl _)
          rw [h2] at hsfx
          cases hsfx
    show splitBackupHead (c :: (s' ++ "_backup_".toList ++ r)) = c :: s'
    simp only [splitBackupHead, hcond, Bool.false_eq_true, if_false, ih hparts.2 hs2]

/-- C8 counterexample, two failing hosts of the original claim.  First, for
the host file `a_backup.vrf` — whose stem `a_backup` does not contain the
substring `'_backup_'` — backup followed by restore succeeds but writes the
backed-up content to `a.vrf`, a name different from the original filename
(the appended `'_backup_'` separator completes the stem's trailing
`'_backup'` into an earlier occurrence of the separator).  Second, for the
host file `.vrf` — whose pathlib stem is `.vrf` itself, containing no
`'_backup_'` and not ending in `'_backup'` — restore writes the content to
`.vrf.vrf`, again a different name; this forces the non-empty-stem condition
of the amended claim. -/
theorem backup_restore_misnames_file :
    hasBackupSub (stem ("a_backup.vrf".toList)) = false ∧
    (restore_original_file
        (backup_file (FMState.mk [("a_backup.vrf".toList, 7)] [] none)
          ("a_backup.vrf".toList) 0).2).1 = true ∧
    (restore_original_file
        (backup_file (FMState.mk [("a_backup.vrf".toList, 7)] [] none)
          ("a_backup.vrf".toList) 0).2).2.files.lookup ("a.vrf".toList) = some 7 ∧
    (FMState.mk [("a_backup.vrf".toList, 7)] [] none).files.lookup ("a.vrf".toList) = none ∧
    (("a.vrf".toList : List Char) == "a_backup.vrf".toList) = false ∧
    stem (".vrf".toList) = ".vrf".toList ∧
    hasBackupSub (stem (".vrf".toList)) = false ∧
    ("_backup".toList).isSuffixOf (stem (".vrf".toList)) = false ∧
    (restore_original_file
        (backup_file (FMState.mk [(".vrf".toList, 9)] [] none) (".vrf".toList) 0).2).1 = true ∧
    (restore_original_file
        (backup_file (FMState.mk [(".vrf".toList, 9)] [] none)
          (".vrf".toList) 0).2).2.files.lookup (".vrf.vrf".toList) = some 9 ∧
    (FMState.mk [(".vrf".toList, 9)] [] none).files.lookup (".vrf.vrf".toList) = none ∧
    ((".vrf.vrf".toList : List Char) == ".vrf".toList) = false := by
  decide

/-- C8 amended: for every host replay file whose name is a non-empty stem `s`
followed by the `'.vrf'` extension, where `s` neither contains the substring
`'_backup_'` nor ends with `'_backup'`, backing the file up and then
restoring writes the backed-up content to a file whose name equals the
original filename; and `restore_original_file` returns `False` when no backup
has been recorded. -/
theorem backup_restore_roundtrip (fs : FMState) (s : List Char) (ts c : Nat)
    (hne : s ≠ [])
    (hsub : hasBackupSub s = false)
    (hsuf : ("_backup".toList).isSuffixOf s = false)
    (hc : fs.files.lookup (s ++ ".vrf".toList) = some c) :
    ((backup_file fs (s ++ ".vrf".toList) ts).1 = true ∧
     (restore_original_file (backup_file fs (s ++ ".vrf".toList) ts).2).1 = true ∧
     (restore_original_file (backup_file fs (s ++ ".vrf".toList) ts).2).2.files.lookup
        (s ++ ".vrf".toList) = some c) ∧
    (∀ fs0 : FMState, fs0.current_backup = none → restore_original_file fs0 = (false, fs0)) := by
  have hstem1 : stem (s ++ ".vrf".toList) = s :=
    stem_append s ("vrf".toList) hne (by decide) (by decide)
  have hx2 : s ++ "_backup_".toList ++ Nat.toDigits 10 ts ≠ [] := by
    intro h
    rw [List.append_eq_nil, List.append_eq_nil] at h
    exact hne h.1.1
  have hstem2 : stem (s ++ "_backup_".toList ++ Nat.toDigits 10 ts ++ ".vrf".toList) =
      s ++ "_backup_".toList ++ Nat.toDigits 10 ts :=
    stem_append (s ++ "_backup_".toList ++ Nat.toDigits 10 ts) ("vrf".toList) hx2
      (by decide) (by decide)
  have hsplit : splitBackupHead (s ++ "_backup_".toList ++ Nat.toDigits 10 ts) = s :=
    splitBackupHead_append s (Nat.toDigits 10 ts) hsub hsuf
  have hb : backup_file fs (s ++ ".vrf".toList) ts =
      (true, { fs with
        backups := (s ++ "_backup_".toList ++ Nat.toDigits 10 ts ++ ".vrf".toList, c)
          :: fs.backups,
        current_backup := some (s ++ "_backup_".toList ++ Nat.toDigits 10 ts
          ++ ".vrf".toList) }) := by
    simp only [backup_file, hc, hstem1]
  refine ⟨⟨?_, ?_, ?_⟩, ?_⟩
  · rw [hb]
  · rw [hb]
    simp only [restore_original_file, List.lookup_cons_self, hstem2, hsplit]
  · rw [hb]
    simp only [restore_original_file, List.lookup_cons_self, hstem2, hsplit,
      List.lookup_cons_self]
  · intro fs0 h0
    simp [restore_original_file, h0]

/-- Witness for C8 at a concrete file system: `match1.vrf` is backed up and
restored to the same name with the same content. -/
theorem backup_restore_roundtrip_witness :
    ((backup_file (FMState.mk [("match1.vrf".toList, 5)] [] none)
        ("match1".toList ++ ".vrf".toList) 3).1 = true ∧
     (restore_original_file
        (backup_file (FMState.mk [("match1.vrf".toList, 5)] [] none)
          ("match1".toList ++ ".vrf".toList) 3).2).1 = true ∧
     (restore_original_file
        (backup_file (FMState.mk [("match1.vrf".toList, 5)] [] none)
          ("match1".toList ++ ".vrf".toList) 3).2).2.files.lookup
        ("match1".toList ++ ".vrf".toList) = some 5) ∧
    (∀ fs0 : FMState, fs0.current_backup = none → restore_original_file fs0 = (false, fs0)) :=
  backup_restore_roundtrip (FMState.mk [("match1.vrf".toList, 5)] [] none)
    ("match1".toList) 3 5 (by decide) (by decide) (by decide) (by decide)

/-- A successful `consumeHex` has consumed a block that it accepts exactly. -/
theorem consumeHex_some_iff (n : Nat) (s r : List Char) :
    consumeHex n s = some r ↔ ∃ u, s = u ++ r ∧ consumeHex n u = some [] := by
  induction n generalizing s with
  | zero => simp [consumeHex]
  | succ n ih =>
    cases s with
    | nil =>
      simp only [consumeHex]
      constructor
      · intro h; cases h
      · rintro ⟨u, hu, hcu⟩
        cases u with
        | nil => simp [consumeHex] at hcu
        | cons b u' => simp at hu
    | cons a s' =>
      by_cases ha : isHexChar a = true
      · simp only [consumeHex, ha, if_true]
        rw [ih]
        constructor
        · rintro ⟨u, hu, hcu⟩
          exact ⟨a :: u, by simp [hu], by simp [consumeHex, ha, hcu]⟩
        · rintro ⟨u, hu, hcu⟩
          cases u with
          | nil => simp [consumeHex] at hcu
          | cons b u' =>
            obtain ⟨hb, hs'⟩ : b = a ∧ s' = u' ++ r := by
              constructor
              · exact (List.cons.injEq .. ▸ hu).1.symm
              · exact (List.cons.injEq .. ▸ hu).2
            subst hb
            simp only [consumeHex, ha, if_true] at hcu
            exact ⟨u', hs', hcu⟩
      · simp only [consumeHex, ha, if_false]
        constructor
        · intro h; cases h
        · rintro ⟨u, hu, hcu⟩
          cases u with
          | nil => simp [consumeHex] at hcu
          | cons b u' =>
            obtain ⟨hb, _⟩ : b = a ∧ s' = u' ++ r := by
              constructor
              · exact (List.cons.injEq .. ▸ hu).1.symm
              · exact (List.cons.injEq .. ▸ hu).2
            subst hb
            simp [consumeHex, ha] at hcu

/-- A successful `consumeDash` has consumed exactly one dash. -/
theorem consumeDash_some_iff (s r : List Char) :
    consumeDash s = some r ↔ s = '-' :: r := by
  cases s with
  | nil => simp [consumeDash]
  | cons a s' =>
    by_cases ha : a = '-'
    · subst ha; simp [consumeDash]
    · constructor
      · intro h
        simp [consumeDash, ha] at h
      · intro h
        exact absurd (List.cons.injEq .. ▸ h).1 ha

/-- A successful `consumeGroups` has consumed a block that it accepts exactly. -/
theorem consumeGroups_some_iff (g : List Nat) (s r : List Char) :
    consumeGroups g s = some r ↔ ∃ u, s = u ++ r ∧ consumeGroups g u = some [] := by
  induction g generalizing s with
  | nil => simp [consumeGroups]
  | cons n ns ih =>
    cases ns with
    | nil => simpa only [consumeGroups] using consumeHex_some_iff n s r
    | cons m ns' =>
      constructor
      · intro h
        rw [consumeGroups] at h
        cases hx : consumeHex n s with
        | none => rw [hx, Option.none_bind, Option.none_bind] at h; cases h
        | some s1 =>
          rw [hx, Option.some_bind] at h
          cases hd : consumeDash s1 with
          | none => rw [hd, Option.none_bind] at h; cases h
          | some s2 =>
            rw [hd, Option.some_bind] at h
            obtain ⟨u1, hs1, hcu1⟩ := (consumeHex_some_iff n s s1).1 hx
            have hs1d : s1 = '-' :: s2 := (consumeDash_some_iff s1 s2).1 hd
            obtain ⟨u2, hs2, hcu2⟩ := (ih s2).1 h
            refine ⟨u1 ++ '-' :: u2, ?_, ?_⟩
            · rw [hs1, hs1d, hs2]
              simp
            · rw [consumeGroups]
              have e1 : consumeHex n (u1 ++ '-' :: u2) = some ('-' :: u2) :=
                (consumeHex_some_iff n _ _).2 ⟨u1, rfl, hcu1⟩
              have e2 : consumeDash ('-' :: u2) = some u2 := by simp [consumeDash]
              rw [e1, Option.some_bind, e2, Option.some_bind]
              exact hcu2
      · rintro ⟨u, hu, hcu⟩
        subst hu
        rw [consumeGroups] at hcu
        cases hx : consumeHex n u with
        | none => rw [hx, Option.none_bind, Option.none_bind] at hcu; cases hcu
        | some s1 =>
          rw [hx, Option.some_bind] at hcu
          cases hd : consumeDash s1 with
          | none => rw [hd, Option.none_bind] at hcu; cases hcu
          | some s2 =>
            rw [hd, Option.some_bind] at hcu
            obtain ⟨u1, hu1, hcu1⟩ := (consumeHex_some_iff n u s1).1 hx
            have hs1d : s1 = '-' :: s2 := (consumeDash_some_iff s1 s2).1 hd
            rw [consumeGroups]
            have e1 : consumeHex n (u ++ r) = some (s1 ++ r) := by
              refine (consumeHex_some_iff n _ _).2 ⟨u1, ?_, hcu1⟩
              rw [hu1, List.append_assoc]
            have e2 : consumeDash (s1 ++ r) = some (s2 ++ r) := by
              rw [hs1d]
              simp [consumeDash]
            rw [e1, Option.some_bind, e2, Option.some_bind]
            exact (ih (s2 ++ r)).2 ⟨s2, rfl, hcu⟩

/-- The code's regular-expression acceptance in terms of the claim's exact
UUID pattern: Python's `'$'` also accepts one trailing newline. -/
theorem uuidRegexAccepts_iff (s : List Char) :
    uuidRegexAccepts s = true ↔
      uuidExact s = true ∨ (s.getLast? = some '\n' ∧ uuidExact s.dropLast = true) := by
  constructor
  · intro h
    rw [uuidRegexAccepts, Bool.or_eq_true, beq_iff_eq, beq_iff_eq] at h
    rcases h with hg | hg
    · left
      simp [uuidExact, hg]
    · right
      obtain ⟨u, hu, hcu⟩ := (consumeGroups_some_iff uuidGroups s ['\n']).1 hg
      subst hu
      refine ⟨?_, ?_⟩
      · simp
      · simp [uuidExact, List.dropLast_concat, hcu]
  · intro h
    rcases h with h | ⟨hl, hd⟩
    · have hg : consumeGroups uuidGroups s = some [] := by simpa [uuidExact] using h
      simp [uuidRegexAccepts, hg]
    · have hs : s = s.dropLast ++ ['\n'] := by
        conv_lhs => rw [← List.dropLast_append_getLast? '\n' hl]
      have hcu : consumeGroups uuidGroups s.dropLast = some [] := by
        simpa [uuidExact] using hd
      have hg : consumeGroups uuidGroups s = some ['\n'] := by
        rw [hs]
        exact (consumeGroups_some_iff uuidGroups _ _).2 ⟨s.dropLast, rfl, hcu⟩
      simp [uuidRegexAccepts, hg]

/-- C9 counterexample: on a filename that is a valid UUID followed by `.vrf`
and a trailing newline, the stripped string does not match the exact
8-4-4-4-12 pattern, yet the code returns it instead of `None` (Python's `'$'`
matches before a trailing newline). -/
theorem extract_match_id_trailing_newline :
    extract_match_id_from_filename ("00000000-0000-0000-0000-000000000000.vrf\n".toList) =
      some ("00000000-0000-0000-0000-000000000000\n".toList) ∧
    uuidExact ("00000000-0000-0000-0000-000000000000\n".toList) = false := by
  constructor
  · rfl
  · rfl

/-- C9 amended: `extract_match_id_from_filename` removes every occurrence of
`'.vrf'` and returns the stripped string exactly when it matches the
8-4-4-4-12 hexadecimal UUID pattern either exactly or followed by a single
trailing newline; on every other filename it returns `None`. -/
theorem extract_match_id_spec (f : List Char) :
    extract_match_id_from_filename f =
      (if uuidExact (removeVrf f) = true ∨
          ((removeVrf f).getLast? = some '\n' ∧ uuidExact (removeVrf f).dropLast = true)
       then some (removeVrf f) else none) := by
  rw [extract_match_id_from_filename]
  by_cases h : uuidRegexAccepts (removeVrf f) = true
  · rw [if_pos h, if_pos ((uuidRegexAccepts_iff _).1 h)]
  · rw [if_neg h, if_neg]
    intro hx
    exact h ((uuidRegexAccepts_iff _).2 hx)

/-- The match-details dictionary always carries the five label keys with the
input filename. -/
theorem parse_match_details_keys (uid : Option String) (md : MatchDetailsData) (fn : String) :
    dictOk fn (parse_match_details uid md fn) := by
  unfold dictOk parse_match_details
  exact ⟨rfl, rfl, rfl, rfl, rfl⟩

/-- The match-history dictionary always carries the five label keys with the
input filename. -/
theorem parse_match_history_entry_keys (m : HistEntryData) (fn : String) :
    dictOk fn (parse_match_history_entry m fn) := by
  unfold dictOk parse_match_history_entry
  exact ⟨rfl, rfl, rfl, rfl, rfl⟩

/-- Every dictionary produced by the history-search loop carries the five
label keys with the input filename. -/
theorem search_history_keys (mid : String) (hist : List HistEntryData) (fn : String)
    (d : List (String × PyVal)) (h : search_history mid hist fn = some d) : dictOk fn d := by
  induction hist with
  | nil => simp [search_history] at h
  | cons m rest ih =>
    rw [search_history] at h
    by_cases hm : (m.MatchID == some mid) = true
    · rw [if_pos hm] at h
      cases h
      exact parse_match_history_entry_keys m fn
    · rw [if_neg hm] at h
      exact ih h

/-- C6: `get_replay_metadata` is total and always yields a label record: for
every region, user id, filename and API outcome it returns a dictionary with
the keys `'filename'` (bound to the input filename), `'map'`, `'mode'`,
`'agent'` and `'score'`; the failure cases — no region configured, filename
not a valid match id, or every fetch failing — carry an `'error'` entry
instead of raising. -/
theorem get_replay_metadata_total_dict (region uid : Option String) (fn : String)
    (md : Option MatchDetailsData) (hist : Option (List HistEntryData))
    (summ : Option SummaryData) :
    dictOk fn (get_replay_metadata region uid fn md hist summ) ∧
    (region = none →
       ((get_replay_metadata region uid fn md hist summ).lookup "error").isSome = true) ∧
    (region ≠ none → extract_match_id_from_filename fn.toList = none →
       ((get_replay_metadata region uid fn md hist summ).lookup "error").isSome = true) ∧
    (∀ m, extract_match_id_from_filename fn.toList = some m → md = none → summ = none →
       (hist = none ∨ ∃ l, hist = some l ∧ search_history (String.mk m) l fn = none) →
       ((get_replay_metadata region uid fn md hist summ).lookup "error").isSome = true) := by
  cases region with
  | none =>
    refine ⟨⟨rfl, rfl, rfl, rfl, rfl⟩, fun _ => rfl, fun h => absurd rfl h, ?_⟩
    intro m _ _ _ _
    rfl
  | some r =>
    cases hex : extract_match_id_from_filename fn.toList with
    | none =>
      have hred : get_replay_metadata (some r) uid fn md hist summ =
          [("filename", .str fn), ("map", .str "Unknown"), ("mode", .str "Unknown"),
           ("agent", .str "Unknown"), ("score", .str "Unknown"),
           ("error", .str "Invalid filename format")] := by
        simp only [get_replay_metadata, hex]
      rw [hred]
      refine ⟨⟨rfl, rfl, rfl, rfl, rfl⟩, ?_, ?_, ?_⟩
      · intro h
        exact Option.noConfusion h
      · intro _ _
        rfl
      · intro m hm _ _ _
        cases hm
    | some m0 =>
      cases md with
      | some mdd =>
        have hred : get_replay_metadata (some r) uid fn (some mdd) hist summ =
            parse_match_details uid mdd fn := by
          simp only [get_replay_metadata, hex]
        rw [hred]
        refine ⟨parse_match_details_keys uid mdd fn, ?_, ?_, ?_⟩
        · intro h
          exact Option.noConfusion h
        · intro _ h
          exact Option.noConfusion h
        · intro m _ hmd _ _
          exact Option.noConfusion hmd
      | none =>
        cases hist with
        | none =>
          cases summ with
          | some sd =>
            have hred : get_replay_metadata (some r) uid fn none none (some sd) =
                [("filename", .str fn), ("map", .str "Unknown"), ("mode", .str "Unknown"),
                 ("agent", .str "Unknown"), ("score", .str "Unknown"),
                 ("game_version", .str (sd.GameVersion.getD "Unknown")),
                 ("checksum", .str (sd.Checksum.getD "Unknown"))] := by
              simp only [get_replay_metadata, hex]
            rw [hred]
            refine ⟨⟨rfl, rfl, rfl, rfl, rfl⟩, ?_, ?_, ?_⟩
            · intro h
              exact Option.noConfusion h
            · intro _ h
              exact Option.noConfusion h
            · intro m _ _ hsm _
              exact Option.noConfusion hsm
          | none =>
            have hred : get_replay_metadata (some r) uid fn none none none =
                [("filename", .str fn), ("map", .str "Unknown"), ("mode", .str "Unknown"),
                 ("agent", .str "Unknown"), ("score", .str "Unknown"),
                 ("error", .str "Could not fetch match data")] := by
              simp only [get_replay_metadata, hex]
            rw [hred]
            refine ⟨⟨rfl, rfl, rfl, rfl, rfl⟩, ?_, ?_, ?_⟩
            · intro h
              exact Option.noConfusion h
            · intro _ h
              exact Option.noConfusion h
            · intro m _ _ _ _
              rfl
        | some l =>
          cases hs : search_history (String.mk m0) l fn with
          | some d =>
            have hred : get_replay_metadata (some r) uid fn none (some l) summ = d := by
              simp only [get_replay_metadata, hex, hs]
            rw [hred]
            refine ⟨search_history_keys (String.mk m0) l fn d hs, ?_, ?_, ?_⟩
            · intro h
              exact Option.noConfusion h
            · intro _ h
              exact Option.noConfusion h
            · intro m hm _ _ hh
              cases hm
              rcases hh with hh | ⟨l', hl', hs'⟩
              · exact Option.noConfusion hh
              · cases hl'
                rw [hs] at hs'
                cases hs'
          | none =>
            cases summ with
            | some sd =>
              have hred : get_replay_metadata (some r) uid fn none (some l) (some sd) =
                  [("filename", .str fn), ("map", .str "Unknown"), ("mode", .str "Unknown"),
                   ("agent", .str "Unknown"), ("score", .str "Unknown"),
                   ("game_version", .str (sd.GameVersion.getD "Unknown")),
                   ("checksum", .str (sd.Checksum.getD "Unknown"))] := by
                simp only [get_replay_metadata, hex, hs]
              rw [hred]
              refine ⟨⟨rfl, rfl, rfl, rfl, rfl⟩, ?_, ?_, ?_⟩
              · intro h
                exact Option.noConfusion h
              · intro _ h
                exact Option.noConfusion h
              · intro m _ _ hsm _
                exact Option.noConfusion hsm
            | none =>
              have hred : get_replay_metadata (some r) uid fn none (some l) none =
                  [("filename", .str fn), ("map", .str "Unknown"), ("mode", .str "Unknown"),
                   ("agent", .str "Unknown"), ("score", .str "Unknown"),
                   ("error", .str "Could not fetch match data")] := by
                simp only [get_replay_metadata, hex, hs]
              rw [hred]
              refine ⟨⟨rfl, rfl, rfl, rfl, rfl⟩, ?_, ?_, ?_⟩
              · intro h
                exact Option.noConfusion h
              · intro _ h
                exact Option.noConfusion h
              · intro m _ _ _ _
                rfl

/-- Witness for C6: with no region configured the returned dictionary still
holds the five keys with the input filename. -/
theorem get_replay_metadata_total_dict_witness :
    dictOk "r.vrf" (get_replay_metadata none none "r.vrf" none none none) :=
  (get_replay_metadata_total_dict none none "r.vrf" none none none).1

/-- C5: lockfile content made of at least five colon-free fields joined by
`':'` parses successfully, with the third field as the port and the fourth as
the password; with fewer than five fields the parser reports failure and the
port and password stay unset. -/
theorem parse_lockfile_fields (fields : List (List Char))
    (hsep : ∀ f ∈ fields, ':' ∉ f) (hne : fields ≠ []) :
    (5 ≤ fields.length →
       parse_lockfile ([':'].intercalate fields) = some (fields.getD 2 [], fields.getD 3 [])) ∧
    (fields.length < 5 → parse_lockfile ([':'].intercalate fields) = none) := by
  have hsplit : ([':'].intercalate fields).splitOn ':' = fields :=
    List.splitOn_intercalate fields ':' hsep hne
  constructor
  · intro h5
    simp [parse_lockfile, hsplit, h5]
  · intro h5
    have h5' : ¬ 5 ≤ fields.length := by omega
    simp [parse_lockfile, hsplit, h5']

/-- Witness for C5: a five-field lockfile yields the third field as port and
the fourth as password. -/
theorem parse_lockfile_fields_witness :
    parse_lockfile
        ([':'].intercalate
          ["Riot Client".toList, "12345".toList, "54321".toList, "secretpw".toList,
           "https".toList]) =
      some ("54321".toList, "secretpw".toList) :=
  (parse_lockfile_fields
      ["Riot Client".toList, "12345".toList, "54321".toList, "secretpw".toList, "https".toList]
      (by decide) (by decide)).1 (by decide)

/-- C2: `inject_replay_file` backs the host file up first; when the backup
fails it returns `False` with the state unchanged, and when the backup
succeeds it returns `True` exactly when the copy of the injection file over
the host file succeeds, after which the host file holds the injection file's
content; if that copy raises, it returns `False` with the host file's content
unchanged. -/
theorem inject_replay_file_backup_then_copy (fs : FMState) (host inj : List Char) (ts : Nat) :
    (fs.files.lookup host = none → inject_replay_file fs host inj ts = (false, fs)) ∧
    (∀ c, fs.files.lookup host = some c →
      (((inject_replay_file fs host inj ts).1 = true ↔
          inj ≠ host ∧ (fs.files.lookup inj).isSome) ∧
       ((inject_replay_file fs host inj ts).1 = true →
          (inject_replay_file fs host inj ts).2.files.lookup host = fs.files.lookup inj) ∧
       ((inject_replay_file fs host inj ts).1 = false →
          (inject_replay_file fs host inj ts).2.files.lookup host = some c))) := by
  constructor
  · intro h
    simp [inject_replay_file, backup_file, h]
  · intro c hc
    by_cases hih : inj = host
    · subst hih
      simp [inject_replay_file, backup_file, hc]
    · cases hinj : fs.files.lookup inj with
      | none => simp [inject_replay_file, backup_file, hc, hih, hinj]
      | some ci => simp [inject_replay_file, backup_file, hc, hih, hinj]

/-- Witness for C2: with host and injection files present, injection succeeds
and the host file ends up with the injection file's content. -/
theorem inject_replay_file_backup_then_copy_witness :
    ((inject_replay_file (FMState.mk [("a.vrf".toList, 1), ("b.vrf".toList, 2)] [] none)
        ("a.vrf".toList) ("b.vrf".toList) 0).1 = true ↔
      "b.vrf".toList ≠ "a.vrf".toList ∧
        ((FMState.mk [("a.vrf".toList, 1), ("b.vrf".toList, 2)] [] none).files.lookup
          ("b.vrf".toList)).isSome) ∧
    ((inject_replay_file (FMState.mk [("a.vrf".toList, 1), ("b.vrf".toList, 2)] [] none)
        ("a.vrf".toList) ("b.vrf".toList) 0).1 = true →
      (inject_replay_file (FMState.mk [("a.vrf".toList, 1), ("b.vrf".toList, 2)] [] none)
          ("a.vrf".toList) ("b.vrf".toList) 0).2.files.lookup ("a.vrf".toList) =
        (FMState.mk [("a.vrf".toList, 1), ("b.vrf".toList, 2)] [] none).files.lookup
          ("b.vrf".toList)) ∧
    ((inject_replay_file (FMState.mk [("a.vrf".toList, 1), ("b.vrf".toList, 2)] [] none)
        ("a.vrf".toList) ("b.vrf".toList) 0).1 = false →
      (inject_replay_file (FMState.mk [("a.vrf".toList, 1), ("b.vrf".toList, 2)] [] none)
          ("a.vrf".toList) ("b.vrf".toList) 0).2.files.lookup ("a.vrf".toList) = some 1) :=
  (inject_replay_file_backup_then_copy
      (FMState.mk [("a.vrf".toList, 1), ("b.vrf".toList, 2)] [] none)
      ("a.vrf".toList) ("b.vrf".toList) 0).2 1 (by decide)

/-- One event adds at most one session-poll thread, and only a Start click
adds one. -/
theorem uiStep_monThreads (s : UIState) (e : UIEvent) :
    (uiStep s e).monThreads ≤ s.monThreads + (if e = UIEvent.startClick then 1 else 0) := by
  cases e with
  | refreshCall => simp [uiStep]
  | metaFinish => simp only [uiStep]; split <;> simp
  | startClick => simp only [uiStep]; split <;> simp
  | stopClick => simp only [uiStep]; split <;> simp
  | monObserveStop => simp only [uiStep]; split <;> simp [Nat.sub_le_iff_le_add]

/-- One event adds at most one metadata-fetch thread, and only a
`refresh_replay_list` call adds one. -/
theorem uiStep_metaThreads (s : UIState) (e : UIEvent) :
    (uiStep s e).metaThreads ≤ s.metaThreads + (if e = UIEvent.refreshCall then 1 else 0) := by
  cases e with
  | refreshCall => simp [uiStep]
  | metaFinish => simp only [uiStep]; split <;> simp [Nat.sub_le_iff_le_add]
  | startClick => simp only [uiStep]; split <;> simp
  | stopClick => simp only [uiStep]; split <;> simp
  | monObserveStop => simp only [uiStep]; split <;> simp

/-- Poll-thread count is bounded by the initial count plus the Start clicks. -/
theorem uiRun_monThreads_le (es : List UIEvent) (s : UIState) :
    (uiRun s es).monThreads ≤ s.monThreads + countStart es := by
  induction es generalizing s with
  | nil => simp [uiRun, countStart]
  | cons e es ih =>
    have h1 := uiStep_monThreads s e
    have h2 := ih (uiStep s e)
    have h3 : countStart (e :: es) = countStart es + (if e = UIEvent.startClick then 1 else 0) := by
      simp [countStart, List.countP_cons]
    simp only [uiRun]
    omega

/-- Metadata-thread count is bounded by the initial count plus the
`refresh_replay_list` calls. -/
theorem uiRun_metaThreads_le (es : List UIEvent) (s : UIState) :
    (uiRun s es).metaThreads ≤ s.metaThreads + countRefreshCall es := by
  induction es generalizing s with
  | nil => simp [uiRun, countRefreshCall]
  | cons e es ih =>
    have h1 := uiStep_metaThreads s e
    have h2 := ih (uiStep s e)
    have h3 : countRefreshCall (e :: es) =
        countRefreshCall es + (if e = UIEvent.refreshCall then 1 else 0) := by
      simp [countRefreshCall, List.countP_cons]
    simp only [uiRun]
    omega

/-- While monitoring is active the Start button stays disabled, along every
run. -/
theorem uiRun_flag (es : List UIEvent) (s : UIState)
    (h : (s.monitoring_active && s.start_enabled) = false) :
    ((uiRun s es).monitoring_active && (uiRun s es).start_enabled) = false := by
  induction es generalizing s with
  | nil => simpa [uiRun] using h
  | cons e es ih =>
    refine ih (uiStep s e) ?_
    cases e with
    | refreshCall => simpa [uiStep] using h
    | metaFinish => simp only [uiStep]; split <;> simpa using h
    | startClick => simp only [uiStep]; split <;> simpa using h
    | stopClick => simp only [uiStep]; split <;> simpa using h
    | monObserveStop => simp only [uiStep]; split <;> simpa using h

/-- C10 counterexample: two `refresh_replay_list` invocations — e.g. the
startup call in `__init__` followed by one Refresh click — leave two
metadata-fetch threads running concurrently, and Start, Stop, Start without
the first monitoring thread observing the cleared flag leaves two
session-poll threads running concurrently. -/
theorem two_threads_reachable :
    (uiRun uiStart [UIEvent.refreshCall, UIEvent.refreshCall]).metaThreads = 2 ∧
    (uiRun uiStart [UIEvent.startClick, UIEvent.stopClick, UIEvent.startClick]).monThreads = 2 := by
  constructor <;> rfl

/-- C10 amended: the poll-thread count never exceeds the number of Start
clicks (the Start button is disabled while monitoring is active, so each
Start/Stop cycle adds one), and the metadata-thread count never exceeds the
number of `refresh_replay_list` invocations (Refresh clicks plus the
programmatic calls at startup and after a region change) — but neither count
is bounded by one: every `refresh_replay_list` call spawns a fresh
metadata-fetch thread unconditionally, and a Stop immediately followed by
Start can leave the previous poll loop running alongside the new one. -/
theorem thread_spawn_bounds (es : List UIEvent) :
    (uiRun uiStart es).metaThreads ≤ countRefreshCall es ∧
    (uiRun uiStart es).monThreads ≤ countStart es ∧
    ((uiRun uiStart es).monitoring_active && (uiRun uiStart es).start_enabled) = false := by
  refine ⟨?_, ?_, ?_⟩
  · simpa [uiStart] using uiRun_metaThreads_le es uiStart
  · simpa [uiStart] using uiRun_monThreads_le es uiStart
  · exact uiRun_flag es uiStart (by decide)

end ReplayTool
